import Mathlib

/-!
Verification development for the CalPolySchedule scrape-and-reconcile
pipeline (scrapers/spiders/class_offerings_spider.py,
scrapers/spiders/polyratings_spider.py, scrapers/pipelines.py).

The Python source is shallowly embedded: pure parsing helpers become Lean
functions over `String`/`List Char`; the Postgres-backed pipelines become
explicit state transitions on a `DB` record, with psycopg transaction
blocks modelled as all-or-nothing state updates and store-level failures
injected through an explicit `FaultModel`.
-/

deriving instance DecidableEq for Except

namespace CalPolySchedule

/-! ## Python string primitives -/

/-- Numeric value of an ASCII digit character. -/
def digitVal (c : Char) : Nat := c.toNat - 48

/-- Whitespace as recognised by Python `str.strip()` and the `\s` class in
`_strptime`-generated regexes (the subset relevant to this codebase:
space, tab, newline, carriage return, vertical tab, form feed, and the
non-breaking space U+00A0). -/
def pyIsSpace (c : Char) : Bool :=
  c = ' ' || c = '\t' || c = '\n' || c = '\r' || c = '\u000B' || c = '\u000C' || c = ' '

/-- Python `str.strip()` on a character list. -/
def pyStripL (cs : List Char) : List Char :=
  ((cs.dropWhile pyIsSpace).reverse.dropWhile pyIsSpace).reverse

/-- Python `str.strip()`. -/
def pyStrip (s : String) : String := String.mk (pyStripL s.data)

/-- Python `str.strip(", ")`: remove leading and trailing commas and spaces. -/
def isCommaSpace (c : Char) : Bool := c = ',' || c = ' '

/-- Python `s.strip(", ")`. -/
def pyStripCommaSpace (s : String) : String :=
  String.mk (((s.data.dropWhile isCommaSpace).reverse.dropWhile isCommaSpace).reverse)

/-- `listIsPrefix pat cs` holds when `pat` is a prefix of `cs`. -/
def listIsPrefix : List Char → List Char → Bool
  | [], _ => true
  | _ :: _, [] => false
  | p :: ps, c :: cs => p == c && listIsPrefix ps cs

/-- Python `sub in s` (substring containment) on character lists. -/
def listContains : List Char → List Char → Bool
  | [], pat => pat.isEmpty
  | c :: cs, pat => listIsPrefix pat (c :: cs) || listContains cs pat

/-- Python `str.split(" to ")`, specialised to the one separator the source
splits on: scan left to right, cutting at each non-overlapping occurrence
of `" to "`; the accumulator holds the current part reversed. -/
def splitOnTo : List Char → List Char → List (List Char)
  | ' ' :: 't' :: 'o' :: ' ' :: rest, acc => acc.reverse :: splitOnTo rest []
  | c :: rest, acc => splitOnTo rest (c :: acc)
  | [], acc => [acc.reverse]

/-- Python `s.replace("\xa0", " ")` (the pattern is a single character, so a
character-wise map is an exact model). -/
def replaceNbsp (s : String) : String :=
  String.mk (s.data.map fun c => if c = ' ' then ' ' else c)

/-! ## Time-directive matchers

These mirror the regexes Python's `_strptime` builds for the directives
appearing in the four formats tried by `_parse_time`
(class_offerings_spider.py lines 19-23):
`%H` ↦ `2[0-3]|[0-1]\d|\d`, `%I` ↦ `1[0-2]|0[1-9]|[1-9]`,
`%M` ↦ `[0-5]\d|\d`, `%S` ↦ `[0-5]\d|\d` (Python's `%S` also admits 60-61,
but `datetime.strptime` then raises `ValueError` from the `datetime`
constructor — caught by `_parse_time`'s loop — so omitting 60-61 from the
matcher yields the same observable function), `%p` ↦ case-insensitive
AM/PM, and a literal whitespace in the format ↦ `\s+`. -/

/-- Match the `%H` directive (hour 0-23, one or two digits). -/
def matchH : List Char → Option (Nat × List Char)
  | c1 :: c2 :: rest =>
    if c1 = '2' ∧ '0' ≤ c2 ∧ c2 ≤ '3' then some (20 + digitVal c2, rest)
    else if (c1 = '0' ∨ c1 = '1') ∧ c2.isDigit then some (10 * digitVal c1 + digitVal c2, rest)
    else if c1.isDigit then some (digitVal c1, c2 :: rest)
    else none
  | [c1] => if c1.isDigit then some (digitVal c1, []) else none
  | [] => none

/-- Match the `%I` directive (hour 1-12, one or two digits). -/
def matchI : List Char → Option (Nat × List Char)
  | c1 :: c2 :: rest =>
    if c1 = '1' ∧ '0' ≤ c2 ∧ c2 ≤ '2' then some (10 + digitVal c2, rest)
    else if c1 = '0' ∧ '1' ≤ c2 ∧ c2 ≤ '9' then some (digitVal c2, rest)
    else if '1' ≤ c1 ∧ c1 ≤ '9' then some (digitVal c1, c2 :: rest)
    else none
  | [c1] => if '1' ≤ c1 ∧ c1 ≤ '9' then some (digitVal c1, []) else none
  | [] => none

/-- Match the `%M` / `%S` directives (0-59, one or two digits). -/
def matchMS : List Char → Option (Nat × List Char)
  | c1 :: c2 :: rest =>
    if '0' ≤ c1 ∧ c1 ≤ '5' ∧ c2.isDigit then some (10 * digitVal c1 + digitVal c2, rest)
    else if c1.isDigit then some (digitVal c1, c2 :: rest)
    else none
  | [c1] => if c1.isDigit then some (digitVal c1, []) else none
  | [] => none

/-- Match the `%p` directive: case-insensitive AM/PM; `true` means PM. -/
def matchAmPm : List Char → Option (Bool × List Char)
  | c1 :: c2 :: rest =>
    if (c1 = 'A' ∨ c1 = 'a') ∧ (c2 = 'M' ∨ c2 = 'm') then some (false, rest)
    else if (c1 = 'P' ∨ c1 = 'p') ∧ (c2 = 'M' ∨ c2 = 'm') then some (true, rest)
    else none
  | _ => none

/-- Match a literal character of the format string. -/
def matchLit (c : Char) : List Char → Option (List Char)
  | c1 :: rest => if c1 = c then some rest else none
  | [] => none

/-- Match `\s+` (one or more whitespace characters). -/
def matchSpaces1 : List Char → Option (List Char)
  | c :: rest => if pyIsSpace c then some (rest.dropWhile pyIsSpace) else none
  | [] => none

/-- Convert a `%I` hour together with the AM/PM flag, as `_strptime` does:
PM adds 12 unless the hour is 12; AM maps 12 to 0. -/
def hour12to24 (pm : Bool) (i : Nat) : Nat :=
  if pm then (if i = 12 then 12 else i + 12) else (if i = 12 then 0 else i)

/-- The validity check of the `datetime` constructor on the time fields
(hour 0-23, minute 0-59, second 0-59); `datetime.strptime` raises
`ValueError` outside these bounds. -/
def mkDatetimeTime (h m s : Nat) : Option (Nat × Nat × Nat) :=
  if h < 24 ∧ m < 60 ∧ s < 60 then some (h, m, s) else none

/-- Full-string match of `"%I:%M %p"`, yielding the 24-hour hour and minute. -/
def parseIMp (cs : List Char) : Option (Nat × Nat) := do
  let (i, cs) ← matchI cs
  let cs ← matchLit ':' cs
  let (m, cs) ← matchMS cs
  let cs ← matchSpaces1 cs
  let (pm, cs) ← matchAmPm cs
  if cs = [] then pure (hour12to24 pm i, m) else none

/-- Full-string match of `"%H:%M"`. -/
def parseHM (cs : List Char) : Option (Nat × Nat) := do
  let (h, cs) ← matchH cs
  let cs ← matchLit ':' cs
  let (m, cs) ← matchMS cs
  if cs = [] then pure (h, m) else none

/-- Full-string match of `"%I:%M:%S %p"`. -/
def parseIMSp (cs : List Char) : Option (Nat × Nat × Nat) := do
  let (i, cs) ← matchI cs
  let cs ← matchLit ':' cs
  let (m, cs) ← matchMS cs
  let cs ← matchLit ':' cs
  let (s, cs) ← matchMS cs
  let cs ← matchSpaces1 cs
  let (pm, cs) ← matchAmPm cs
  if cs = [] then pure (hour12to24 pm i, m, s) else none

/-- Full-string match of `"%H:%M:%S"`. -/
def parseHMS (cs : List Char) : Option (Nat × Nat × Nat) := do
  let (h, cs) ← matchH cs
  let cs ← matchLit ':' cs
  let (m, cs) ← matchMS cs
  let cs ← matchLit ':' cs
  let (s, cs) ← matchMS cs
  if cs = [] then pure (h, m, s) else none

/-- The four formats tried, in source order, by `_parse_time`. -/
inductive TimeFmt
  | IMp | HM | IMSp | HMS
deriving DecidableEq, Repr

/-- `datetime.strptime(text, fmt)` restricted to the time fields: directive
match followed by the `datetime` constructor's validity check. -/
def tryFmt (cs : List Char) : TimeFmt → Option (Nat × Nat × Nat)
  | .IMp => (parseIMp cs).bind fun hm => mkDatetimeTime hm.1 hm.2 0
  | .HM => (parseHM cs).bind fun hm => mkDatetimeTime hm.1 hm.2 0
  | .IMSp => (parseIMSp cs).bind fun v => mkDatetimeTime v.1 v.2.1 v.2.2
  | .HMS => (parseHMS cs).bind fun v => mkDatetimeTime v.1 v.2.1 v.2.2

/-- First successful format wins, as in the `for fmt in (...)` loop. -/
def tryFormats : List TimeFmt → List Char → Option (Nat × Nat × Nat)
  | [], _ => none
  | f :: fs, cs =>
    match tryFmt cs f with
    | some v => some v
    | none => tryFormats fs cs

/-- Two zero-padded decimal digits, as `%02d` formatting for `n < 100`. -/
def pad2Chars (n : Nat) : List Char :=
  [Char.ofNat (48 + n / 10), Char.ofNat (48 + n % 10)]

/-- `datetime.strftime("%H:%M:%S")` on the time fields. -/
def fmtHMS (h m s : Nat) : String :=
  String.mk (pad2Chars h ++ ':' :: (pad2Chars m ++ ':' :: pad2Chars s))

/-- `_parse_time` (class_offerings_spider.py lines 5-24): normalise the
non-breaking space, strip, try the four formats in order, emit
zero-padded `"HH:MM:SS"`; `None`/empty/unparseable input yields `none`. -/
def _parse_time (raw : Option String) : Option String :=
  match raw with
  | none => none
  | some r =>
    if r = "" then none
    else if pyStrip (replaceNbsp r) = "" then none
    else
      match tryFormats [TimeFmt.IMp, TimeFmt.HM, TimeFmt.IMSp, TimeFmt.HMS]
          (pyStrip (replaceNbsp r)).data with
      | some (h, m, s) => some (fmtHMS h m s)
      | none => none

/-- Decidable check that a string is a zero-padded 24-hour `"HH:MM:SS"`. -/
def isPaddedHMS (out : String) : Bool :=
  match out.data with
  | [h1, h2, c1, m1, m2, c2, s1, s2] =>
    c1 == ':' && c2 == ':' &&
    h1.isDigit && h2.isDigit && m1.isDigit && m2.isDigit && s1.isDigit && s2.isDigit &&
    decide (digitVal h1 * 10 + digitVal h2 < 24) &&
    decide (digitVal m1 * 10 + digitVal m2 < 60) &&
    decide (digitVal s1 * 10 + digitVal s2 < 60)
  | _ => false

/-! ## Python `int()` and the seats computation -/

/-- Tail of Python's integer literal grammar: further digits, with single
underscores allowed only between digits. -/
def digitsTail (acc : Nat) : List Char → Option Nat
  | [] => some acc
  | '_' :: c :: rest => if c.isDigit then digitsTail (acc * 10 + digitVal c) rest else none
  | c :: rest => if c.isDigit then digitsTail (acc * 10 + digitVal c) rest else none

/-- At least one ASCII digit, underscores only between digits. -/
def parseDigitsU : List Char → Option Nat
  | c :: rest => if c.isDigit then digitsTail (digitVal c) rest else none
  | [] => none

/-- Python `int(s)` for a decimal string: surrounding whitespace stripped,
optional sign, ASCII digits with underscores between digits; `none` models
the `ValueError` raised on anything else. -/
def pyInt (s : String) : Option Int :=
  match pyStripL s.data with
  | '+' :: rest => (parseDigitsU rest).map Int.ofNat
  | '-' :: rest => (parseDigitsU rest).map fun n => -(Int.ofNat n)
  | rest => (parseDigitsU rest).map Int.ofNat

/-- The enrollment-availability block of `parse_subject_page`
(class_offerings_spider.py lines 220-230): given the `td.count` cell texts
`(LCap, ECap, Enrl, Wait, Drop)`, compute `max(0, ecap - enrl)` when at
least 3 cells are present and cells 2 and 3 parse as integers, else `None`
(the `try` swallows the `ValueError`). -/
def enrollment_available_of (counts : List String) : Option Int :=
  if counts.length ≥ 3 then
    match pyInt ((counts.get? 1).getD "") with
    | none => none
    | some ecap =>
      match pyInt ((counts.get? 2).getD "") with
      | none => none
      | some enrl => some (max 0 (ecap - enrl))
  else none

/-! ## Term date-range and academic-year parsing (pipelines.py lines 146-162) -/

/-- A Python `datetime.date`. -/
structure PDate where
  year : Nat
  month : Nat
  day : Nat
deriving DecidableEq, Repr

/-- Leap-year rule used by `datetime`. -/
def isLeap (y : Nat) : Bool :=
  (y % 4 == 0 && y % 100 != 0) || y % 400 == 0

/-- Days in a month, as validated by the `datetime` constructor. -/
def daysInMonth (y m : Nat) : Nat :=
  if m = 2 then (if isLeap y then 29 else 28)
  else if m = 4 ∨ m = 6 ∨ m = 9 ∨ m = 11 then 30
  else 31

/-- The `datetime` constructor's validity check on a date (year 1-9999 and a
day that exists in the month); failure models the `ValueError` it raises. -/
def mkDate (y m d : Nat) : Option PDate :=
  if 1 ≤ y ∧ y ≤ 9999 ∧ 1 ≤ d ∧ d ≤ daysInMonth y m then some ⟨y, m, d⟩ else none

/-- Full month names with their numbers, longest first, as in the regex
`_strptime` builds for `%B`. -/
def monthNames : List (List Char × Nat) :=
  [("September".data, 9), ("February".data, 2), ("November".data, 11), ("December".data, 12),
   ("January".data, 1), ("October".data, 10), ("August".data, 8), ("March".data, 3),
   ("April".data, 4), ("June".data, 6), ("July".data, 7), ("May".data, 5)]

/-- Strip a case-insensitive prefix, returning the remainder on success. -/
def stripPrefixCI : List Char → List Char → Option (List Char)
  | [], rest => some rest
  | _ :: _, [] => none
  | p :: ps, c :: cs => if c.toLower = p.toLower then stripPrefixCI ps cs else none

/-- Match the `%B` directive: a case-insensitive full month name. -/
def matchMonth (cs : List Char) : Option (Nat × List Char) :=
  monthNames.foldr
    (fun nm acc =>
      match stripPrefixCI nm.1 cs with
      | some rest => some (nm.2, rest)
      | none => acc)
    none

/-- Match the `%d` directive (day 1-31, one or two digits). -/
def matchDay : List Char → Option (Nat × List Char)
  | c1 :: c2 :: rest =>
    if c1 = '3' ∧ (c2 = '0' ∨ c2 = '1') then some (30 + digitVal c2, rest)
    else if (c1 = '1' ∨ c1 = '2') ∧ c2.isDigit then some (10 * digitVal c1 + digitVal c2, rest)
    else if c1 = '0' ∧ '1' ≤ c2 ∧ c2 ≤ '9' then some (digitVal c2, rest)
    else if '1' ≤ c1 ∧ c1 ≤ '9' then some (digitVal c1, c2 :: rest)
    else none
  | [c1] => if '1' ≤ c1 ∧ c1 ≤ '9' then some (digitVal c1, []) else none
  | [] => none

/-- Match the `%Y` directive: exactly four digits. -/
def matchYear4 : List Char → Option (Nat × List Char)
  | c1 :: c2 :: c3 :: c4 :: rest =>
    if c1.isDigit ∧ c2.isDigit ∧ c3.isDigit ∧ c4.isDigit then
      some (digitVal c1 * 1000 + digitVal c2 * 100 + digitVal c3 * 10 + digitVal c4, rest)
    else none
  | _ => none

/-- `datetime.strptime(text, "%B %d, %Y").date()`: full-string match of the
long-form date followed by the `datetime` constructor's validity check. -/
def strptimeBdY (cs : List Char) : Option PDate := do
  let (m, cs) ← matchMonth cs
  let cs ← matchSpaces1 cs
  let (d, cs) ← matchDay cs
  let cs ← matchLit ',' cs
  let cs ← matchSpaces1 cs
  let (y, cs) ← matchYear4 cs
  if cs = [] then mkDate y m d else none

/-- The date-range block of `_get_or_create_term` (pipelines.py lines
146-155): when `" to "` occurs, split on it and parse each side with
`"%B %d, %Y"`; the shared `try` means a failure on the first side leaves
both dates `None`, while a failure on the second side alone leaves the
already-assigned start date in place.  (The `parts[1]` access cannot raise
`IndexError`: the separator's presence guarantees at least two parts.) -/
def parseTermDates (term_date_text : String) : Option PDate × Option PDate :=
  if listContains term_date_text.data (" to ").data then
    match strptimeBdY (pyStripL ((splitOnTo term_date_text.data []).headD [])) with
    | none => (none, none)
    | some d1 =>
      match strptimeBdY (pyStripL (((splitOnTo term_date_text.data []).get? 1).getD [])) with
      | none => (some d1, none)
      | some d2 => (some d1, some d2)
  else (none, none)

/-- `re.search(r"(\d{4})", name)`: the first run of four consecutive ASCII
digits, as a number. -/
def findFourDigits : List Char → Option Nat
  | [] => none
  | c1 :: rest =>
    match rest with
    | c2 :: c3 :: c4 :: _ =>
      if c1.isDigit ∧ c2.isDigit ∧ c3.isDigit ∧ c4.isDigit then
        some (digitVal c1 * 1000 + digitVal c2 * 100 + digitVal c3 * 10 + digitVal c4)
      else findFourDigits rest
    | _ => none

/-- The academic-year block of `_get_or_create_term` (pipelines.py lines
157-162): the first 4-digit year in the term name, kept as-is when the name
contains `"Fall"` and decremented otherwise; `2025` when no year is found. -/
def academic_year_of (term_name : String) : Int :=
  match findFourDigits term_name.data with
  | some y => if listContains term_name.data ("Fall").data then (y : Int) else (y : Int) - 1
  | none => 2025

/-! ## Term discovery (class_offerings_spider.py lines 64-116)

`start_requests` issues exactly one request, for `index_curr.htm`, with
callback `parse_homepage`; `parse_homepage` extracts the page's own term
metadata and yields requests only to `parse_college_subjects` (subject
listings).  No request ever targets `parse_homepage` again, so term
discovery sees exactly the seed page. -/

/-- The selector results `parse_homepage` reads off a term index page,
plus the links such a page carries to other term index pages (which the
code never queries — kept here so that reachability of other terms is
expressible). -/
structure TermPage where
  termSpanText : Option String
  termWinterText : Option String
  termSpringText : Option String
  termSummerText : Option String
  termFallText : Option String
  termDateText : Option String
  subjectHrefs : List String
  indexLinks : List String
deriving DecidableEq, Repr

/-- The term metadata carried through `response.meta`. -/
structure TermMeta where
  term_code : String
  term_name : String
  term_date_text : String
deriving DecidableEq, Repr

/-- The season loop of `parse_homepage`: first non-empty of the
`termWinter`, `termSpring`, `termSummer`, `termFall` span texts, stripped. -/
def termNameOf (p : TermPage) : String :=
  let pick := fun (t : Option String) (k : Unit → String) =>
    if pyStrip (t.getD "") ≠ "" then pyStrip (t.getD "") else k ()
  pick p.termWinterText fun _ =>
    pick p.termSpringText fun _ =>
      pick p.termSummerText fun _ =>
        pick p.termFallText fun _ => ""

/-- The term-metadata extraction of `parse_homepage` (lines 69-96): `none`
models the early `return` when no term code is found. -/
def parse_homepage_term (p : TermPage) : Option TermMeta :=
  let term_code := pyStrip (p.termSpanText.getD "")
  let term_name := termNameOf p
  let term_date_text := pyStrip (p.termDateText.getD "")
  if term_code = "" then none
  else some ⟨term_code, term_name, term_date_text⟩

/-- A site maps URLs to term index pages (`none` when the URL does not
serve one). -/
def Site := String → Option TermPage

/-- The seed URL fetched by `start_requests`. -/
def seedUrl : String := "https://schedules.calpoly.edu/index_curr.htm"

/-- The terms discovered by the spider in one run: `parse_homepage` is only
ever invoked on the seed page, so the output is that page's own term (when
its code is non-empty) and nothing else. -/
def discoveredTerms (site : Site) : List TermMeta :=
  match site seedUrl with
  | none => []
  | some p => (parse_homepage_term p).toList

/-- Modelled from the spec (§4.1 TermDiscoverer), for comparison with
`discoveredTerms`: a breadth-first traversal over index/term links starting
from the seed, with a visited set keyed by URL, emitting one metadata entry
per discovered term page.  This algorithm is absent from the source. -/
def specBFSDiscover (site : Site) : Nat → List String → List String → List TermMeta
  | 0, _, _ => []
  | _ + 1, [], _ => []
  | fuel + 1, url :: frontier, visited =>
    if visited.contains url then specBFSDiscover site fuel frontier visited
    else
      match site url with
      | none => specBFSDiscover site fuel frontier (url :: visited)
      | some p =>
        (parse_homepage_term p).toList ++
          specBFSDiscover site fuel (frontier ++ p.indexLinks) (url :: visited)

/-- Modelled from the spec: the whole BFS from the seed, with fuel large
enough for any finite site under consideration. -/
def specDiscoveredTerms (site : Site) (fuel : Nat) : List TermMeta :=
  specBFSDiscover site fuel [seedUrl] []

/-! ## The relational store

The pipelines consume Postgres through a handful of statements; the store
is modelled as lists of rows with per-table id sequences.  psycopg's
`conn.transaction()` rolls every statement of the block back when an
exception escapes it, so a transactional block is modelled as an
all-or-nothing state update: on failure the caller observes the state from
before the block.  Store-level failures (the spec's "store unavailable,
constraint violation, upsert returns no identifier" and the unreachable
ratings endpoint) are injected through an explicit `FaultModel`. -/

/-- One item yielded by `parse_subject_page` (class_offerings_spider.py
lines 232-252). -/
structure Item where
  term : String
  term_name : String
  term_date_text : String
  subject : String
  catalog_nbr : String
  descr : String
  class_section : String
  class_nbr : Int
  component : String
  days : Option String
  start_time : Option String
  end_time : Option String
  instructor_name : Option String
  facility_descr : Option String
  enrollment_available : Option Int
deriving DecidableEq, Repr

/-- A row of the `terms` table. -/
structure TermRow where
  id : Nat
  term_code : String
  term_name : String
  term_start : Option PDate
  term_end : Option PDate
  academic_year : Int
  is_active : Bool
deriving DecidableEq, Repr

/-- A row of the `class_offerings` table. -/
structure OfferingRow where
  term_id : Nat
  class_nbr : Int
  subject : String
  catalog_nbr : String
  class_section : String
  component : String
  descr : String
  days : Option String
  start_time : Option String
  end_time : Option String
  facility_descr : Option String
  instructor_name : Option String
  enrollment_available : Option Int
deriving DecidableEq, Repr

/-- A row of the `professor_ratings` table.  The rating figures are scraped
JSON values the pipeline forwards without inspecting; they are carried
opaquely as optional strings. -/
structure ProfessorRow where
  id : Nat
  professor_key : String
  professor_name : String
  overall_rating : Option String
  student_difficulties : Option String
  clarity : Option String
  num_evals : Option String
deriving DecidableEq, Repr

/-- A row of the `professor_tags` table. -/
structure TagRow where
  professor_id : Nat
  tag : String
  vote_count : Int
deriving DecidableEq, Repr

/-- The database state. -/
structure DB where
  terms : List TermRow
  offerings : List OfferingRow
  professors : List ProfessorRow
  professor_tags : List TagRow
  next_term_id : Nat
  next_prof_id : Nat
deriving DecidableEq, Repr

/-- The store/network failures injectable into a run: `bulkInsertFails`
makes the `executemany(INSERT ...)` for the given term code raise,
`profUpsertFails` makes the professor upsert for the given key return no
row, and `fetchFails` makes `_fetch_polyratings_professors` raise. -/
structure FaultModel where
  bulkInsertFails : String → Bool
  profUpsertFails : String → Bool
  fetchFails : Bool

/-- The fault-free environment. -/
def noFaults : FaultModel := ⟨fun _ => false, fun _ => false, false⟩

/-- The `INSERT INTO terms ... ON CONFLICT (term_code) DO UPDATE ...
RETURNING id` statement (pipelines.py lines 171-183): on conflict it
updates name, dates and the active flag but not `academic_year`. -/
def upsertTerm (db : DB) (code name : String) (ts te : Option PDate) (ay : Int) : DB × Nat :=
  match db.terms.find? (fun t => t.term_code == code) with
  | some t =>
    ({ db with
        terms := db.terms.map fun r =>
          if r.term_code == code then
            { r with term_name := name, term_start := ts, term_end := te, is_active := true }
          else r },
     t.id)
  | none =>
    ({ db with
        terms := db.terms ++
          [{ id := db.next_term_id, term_code := code, term_name := name,
             term_start := ts, term_end := te, academic_year := ay, is_active := true }],
        next_term_id := db.next_term_id + 1 },
     db.next_term_id)

/-- `_get_or_create_term` (pipelines.py lines 142-188): parse the date range
and academic year from the buffered item, check row existence before the
upsert, upsert, and report `(term_id, is_new)`.  Its transaction contains
no failure point in this model, so it commits as a unit. -/
def _get_or_create_term (db : DB) (item : Item) : DB × Nat × Bool :=
  let dates := parseTermDates item.term_date_text
  let academic_year := academic_year_of item.term_name
  let existing := (db.terms.find? (fun t => t.term_code == item.term)).isSome
  let up := upsertTerm db item.term item.term_name dates.1 dates.2 academic_year
  (up.1, up.2, !existing)

/-- The composite conflict target of the `class_offerings` insert:
`(term_id, class_nbr, days, start_time, end_time, facility_descr)`. -/
def offeringKey (r : OfferingRow) :
    Nat × Int × Option String × Option String × Option String × Option String :=
  (r.term_id, r.class_nbr, r.days, r.start_time, r.end_time, r.facility_descr)

/-- One execution of the `class_offerings` `INSERT ... ON CONFLICT ... DO
UPDATE` (pipelines.py lines 213-233): on conflict only the listed mutable
columns are updated. -/
def insertOfferingRow (rows : List OfferingRow) (r : OfferingRow) : List OfferingRow :=
  if rows.any (fun x => offeringKey x == offeringKey r) then
    rows.map fun x =>
      if offeringKey x == offeringKey r then
        { x with subject := r.subject, catalog_nbr := r.catalog_nbr,
                 class_section := r.class_section, component := r.component,
                 descr := r.descr, instructor_name := r.instructor_name,
                 enrollment_available := r.enrollment_available }
      else x
  else rows ++ [r]

/-- The tuple built for one item in `close_spider` (pipelines.py lines
242-259). -/
def offeringRowOf (term_id : Nat) (item : Item) : OfferingRow :=
  { term_id := term_id, class_nbr := item.class_nbr, subject := item.subject,
    catalog_nbr := item.catalog_nbr, class_section := item.class_section,
    component := item.component, descr := item.descr, days := item.days,
    start_time := item.start_time, end_time := item.end_time,
    facility_descr := item.facility_descr, instructor_name := item.instructor_name,
    enrollment_available := item.enrollment_available }

/-- One iteration of the per-term loop in `close_spider` (pipelines.py lines
237-267): upsert the term (its own transaction), then, in a second
transaction, delete the term's offerings and bulk-insert the new rows.  A
failing `executemany` raises out of the transaction block, which rolls the
delete back: the error result carries the state with the term upsert
committed and the offerings untouched. -/
def replaceOneTerm (f : FaultModel) (metaItem : Item) (items : List Item) (db : DB) :
    Except (String × DB) (DB × Bool) :=
  let g := _get_or_create_term db metaItem
  let rows := items.map (offeringRowOf g.2.1)
  if f.bulkInsertFails metaItem.term then
    .error ("bulk insert failed", g.1)
  else
    let remaining := g.1.offerings.filter fun r => r.term_id != g.2.1
    .ok ({ g.1 with offerings := rows.foldl insertOfferingRow remaining }, g.2.2)

/-- One `process_item` step for `self._term_meta`: record the item for its
term code only when none is recorded yet (pipelines.py lines 192-196). -/
def termMetaStep (acc : List (String × Item)) (it : Item) : List (String × Item) :=
  if (acc.find? fun p => p.1 == it.term).isSome then acc else acc ++ [(it.term, it)]

/-- The `self._term_meta` dict after all `process_item` calls: for each term
code, the first item seen with that code. -/
def buildTermMeta (items : List Item) : List (String × Item) :=
  items.foldl termMetaStep []

/-- Dict lookup `self._term_meta[term_code]`. -/
def lookupMeta (tm : List (String × Item)) (code : String) : Option Item :=
  (tm.find? fun p => p.1 == code).map (·.2)

/-- The distinct term codes in first-seen order — the key order of the
`defaultdict` built in `close_spider` (pipelines.py lines 208-211). -/
def termCodes (items : List Item) : List String :=
  items.foldl (fun acc it => if acc.contains it.term then acc else acc ++ [it.term]) []

/-- The `by_term` grouping of `close_spider`: keys in first-seen order, each
group keeping the original item order. -/
def groupByTerm (items : List Item) : List (String × List Item) :=
  (termCodes items).map fun c => (c, items.filter fun it => it.term == c)

/-- The `for term_code, items in by_term.items()` loop of `close_spider`
(pipelines.py lines 237-271).  There is no `try`/`except` around the loop
body: an exception from one term's replacement propagates, so the
remaining groups are never attempted; groups already committed stay
committed.  (The `none` branch of the meta lookup models the impossible
`KeyError`; `_term_meta` always holds every code appearing in `_items`.) -/
def replaceTermsLoop (f : FaultModel) (tm : List (String × Item)) :
    List (String × List Item) → DB → Bool → Except (String × DB) (DB × Bool)
  | [], db, sawNew => .ok (db, sawNew)
  | (code, items) :: rest, db, sawNew =>
    match lookupMeta tm code with
    | none => .error ("KeyError", db)
    | some metaItem =>
      match replaceOneTerm f metaItem items db with
      | .ok (db1, is_new) => replaceTermsLoop f tm rest db1 (sawNew || is_new)
      | .error e => .error e

/-! ## Flow B: professor ratings -/

/-- One raw professor record, as consumed by `_normalize_professor_item`
(pipelines.py lines 16-32): optional fields model `dict.get` misses, and
the rating figures are carried opaquely. -/
structure RawProfessor where
  professor_id : Option String
  id : Option String
  firstName : String
  lastName : String
  name : Option String
  overallRating : Option String
  studentDifficulties : Option String
  clarity : Option String
  materialClear : Option String
  numEvals : Option String
  tags : List (String × Int)
deriving DecidableEq, Repr

/-- The normalized professor record. -/
structure NormProfessor where
  professor_id : Option String
  name : String
  overallRating : Option String
  studentDifficulties : Option String
  clarity : Option String
  numEvals : Option String
  tags : List (String × Int)
deriving DecidableEq, Repr

/-- `_normalize_professor_item` (pipelines.py lines 16-32): identifier from
`professor_id` falling back to `id`, name from `name` falling back to
`"Last, First"` stripped of stray comma/space, clarity from `clarity`
falling back to `materialClear`. -/
def _normalize_professor_item (raw : RawProfessor) : NormProfessor :=
  let professor_id := match raw.professor_id with
    | some v => some v
    | none => raw.id
  let name0 := raw.name.getD ""
  let name :=
    if name0 = "" then pyStrip (pyStripCommaSpace (raw.lastName ++ ", " ++ raw.firstName))
    else name0
  { professor_id := professor_id, name := name, overallRating := raw.overallRating,
    studentDifficulties := raw.studentDifficulties,
    clarity := (match raw.clarity with | some v => some v | none => raw.materialClear),
    numEvals := raw.numEvals, tags := raw.tags }

/-- The `professor_ratings` `INSERT ... ON CONFLICT (professor_key) DO
UPDATE ... RETURNING id` (pipelines.py lines 42-62). -/
def upsertProfessor (db : DB) (item : NormProfessor) (key : String) : DB × Nat :=
  match db.professors.find? (fun p => p.professor_key == key) with
  | some p =>
    ({ db with
        professors := db.professors.map fun r =>
          if r.professor_key == key then
            { r with professor_name := item.name, overall_rating := item.overallRating,
                     student_difficulties := item.studentDifficulties,
                     clarity := item.clarity, num_evals := item.numEvals }
          else r },
     p.id)
  | none =>
    ({ db with
        professors := db.professors ++
          [{ id := db.next_prof_id, professor_key := key, professor_name := item.name,
             overall_rating := item.overallRating,
             student_difficulties := item.studentDifficulties,
             clarity := item.clarity, num_evals := item.numEvals }],
        next_prof_id := db.next_prof_id + 1 },
     db.next_prof_id)

/-- The `professor_tags` `INSERT ... ON CONFLICT DO NOTHING` (pipelines.py
lines 64-68), with `(professor_id, tag)` as the conflict key. -/
def insertTagRow (tags : List TagRow) (pid : Nat) (tag : String) (votes : Int) : List TagRow :=
  if tags.any (fun t => t.professor_id == pid && t.tag == tag) then tags
  else tags ++ [⟨pid, tag, votes⟩]

/-- One successful iteration of the `_apply_professor_snapshot` loop body
(pipelines.py lines 78-96): upsert the professor, delete all tags held
under the returned row id, then insert the current tag set against that
same id. -/
def applyOneProfessor (db : DB) (item : NormProfessor) (pid : String) : DB :=
  { (upsertProfessor db item pid).1 with
    professor_tags :=
      item.tags.foldl
        (fun acc kv => insertTagRow acc (upsertProfessor db item pid).2 kv.1 kv.2)
        (((upsertProfessor db item pid).1).professor_tags.filter
          fun t => t.professor_id != (upsertProfessor db item pid).2) }

/-- The body of the `with conn.transaction():` block of
`_apply_professor_snapshot` (pipelines.py lines 72-96): for each record,
normalize (a pure computation, so repeating it is sound), skip on a falsy
identifier, raise when the upsert returns no row, otherwise upsert and
refresh the tag set.  The uncommitted state is threaded through; an error
aborts the whole block. -/
def snapshotBody (f : FaultModel) : List RawProfessor → DB → Except String DB
  | [], db => .ok db
  | raw :: rest, db =>
    match (_normalize_professor_item raw).professor_id with
    | none => snapshotBody f rest db
    | some pid =>
      if pid = "" then snapshotBody f rest db
      else if f.profUpsertFails pid then .error "Upsert did not return id"
      else snapshotBody f rest (applyOneProfessor db (_normalize_professor_item raw) pid)

/-- `_apply_professor_snapshot` (pipelines.py lines 41-96): the whole batch
runs inside one `conn.transaction()`, so an error result means every change
of the block was rolled back — callers that catch it keep their pre-call
state. -/
def _apply_professor_snapshot (f : FaultModel) (professors : List RawProfessor) (db : DB) :
    Except String DB :=
  snapshotBody f professors db

/-- `PolyRatingsPostgresPipeline.close_spider` (pipelines.py lines 111-121):
apply the snapshot when items were collected; any exception is caught and
logged, preserving the previous professor data (the failed transaction
having rolled back). -/
def polyRatings_close_spider (f : FaultModel) (pitems : List RawProfessor) (db : DB) : DB :=
  if pitems.isEmpty then db
  else
    match _apply_professor_snapshot f pitems db with
    | .ok db1 => db1
    | .error _ => db

/-- `ClassOfferingsPostgresPipeline.close_spider` (pipelines.py lines
201-287): group the buffered items by term, replace each term in turn, and
when a new term was seen, fetch the ratings payload (`fetched` stands for
the endpoint's data; `f.fetchFails` for an unreachable endpoint) and apply
the professor snapshot — that trailing block alone sits in a
`try`/`except`, so its failure leaves the per-term writes as they are. -/
def classOfferings_close_spider (f : FaultModel) (fetched : List RawProfessor)
    (pitems : List Item) (db : DB) : Except (String × DB) DB :=
  if pitems.isEmpty then .ok db
  else
    match replaceTermsLoop f (buildTermMeta pitems) (groupByTerm pitems) db false with
    | .error e => .error e
    | .ok (db1, sawNew) =>
      if sawNew then
        if f.fetchFails then .ok db1
        else
          match _apply_professor_snapshot f fetched db1 with
          | .ok db2 => .ok db2
          | .error _ => .ok db1
      else .ok db1

/-- The committed state visible after `close_spider`, whether it returned
or raised: an uncaught exception still leaves behind everything committed
before it. -/
def resultDB : Except (String × DB) DB → DB
  | .ok db => db
  | .error (_, db) => db

/-- The referential invariants of the store: every offering references an
existing term row (the row upserted for its term code) and every tag
references an existing professor row. -/
def Inv (db : DB) : Prop :=
  (∀ o ∈ db.offerings, ∃ t ∈ db.terms, t.id = o.term_id) ∧
  (∀ tg ∈ db.professor_tags, ∃ p ∈ db.professors, p.id = tg.professor_id)

/-- The empty database. -/
def emptyDB : DB := ⟨[], [], [], [], 1, 1⟩

/-- Whether one term's replacement raised. -/
def replaceOutcomeFailed : Except (String × DB) (DB × Bool) → Bool
  | .ok _ => false
  | .error _ => true

/-- The committed state after one term's replacement or the per-term loop,
whether it returned or raised. -/
def replaceOutcomeDB : Except (String × DB) (DB × Bool) → DB
  | .ok (db, _) => db
  | .error (_, db) => db

/-- Whether the whole `close_spider` run raised. -/
def runFailed : Except (String × DB) DB → Bool
  | .ok _ => false
  | .error _ => true

/-! ## Concrete example inputs for witnesses and counterexamples -/

/-- A buffered item for term code `"A"`. -/
def exItemA : Item :=
  { term := "A", term_name := "Winter 2026", term_date_text := "",
    subject := "CSC", catalog_nbr := "101", descr := "Fundamentals",
    class_section := "01", class_nbr := 10, component := "LEC",
    days := some "MWF", start_time := some "08:10:00", end_time := some "09:00:00",
    instructor_name := none, facility_descr := some "014-0257", enrollment_available := some 3 }

/-- A buffered item for term code `"B"`. -/
def exItemB : Item :=
  { term := "B", term_name := "Winter 2026", term_date_text := "",
    subject := "CSC", catalog_nbr := "101", descr := "Fundamentals",
    class_section := "01", class_nbr := 20, component := "LEC",
    days := some "MWF", start_time := some "08:10:00", end_time := some "09:00:00",
    instructor_name := none, facility_descr := some "014-0257", enrollment_available := some 3 }

/-- A fault model in which the bulk insert for term `"A"` fails. -/
def exFaultA : FaultModel := ⟨fun c => c == "A", fun _ => false, false⟩

/-- A fault model in which the ratings endpoint is unreachable. -/
def exFetchFail : FaultModel := ⟨fun _ => false, fun _ => false, true⟩

/-- A fault model in which the upsert for professor key `"p2"` returns no
row. -/
def exFaultP2 : FaultModel := ⟨fun _ => false, fun k => k == "p2", false⟩

/-- A raw professor record with the given external key. -/
def exRawP (k : String) : RawProfessor :=
  { professor_id := some k, id := none, firstName := "Ada", lastName := "Lovelace",
    name := none, overallRating := some "3.9", studentDifficulties := none,
    clarity := none, materialClear := some "3.5", numEvals := some "10",
    tags := [("Helpful", 4)] }

/-- The state left by a failed replacement of term `"A"` starting from the
empty database: the term row committed, no offerings. -/
def exDB1 : DB :=
  ⟨[⟨1, "A", "Winter 2026", none, none, 2025, true⟩], [], [], [], 2, 1⟩

/-- The state after a fault-free Flow A run over `[exItemB]` from the empty
database. -/
def exDBB : DB :=
  ⟨[⟨1, "B", "Winter 2026", none, none, 2025, true⟩], [offeringRowOf 1 exItemB], [], [], 2, 1⟩

/-- The state after refreshing professor `"p1"` alone from the empty
database. -/
def exDBp1 : DB :=
  ⟨[], [], [⟨1, "p1", "Lovelace, Ada", some "3.9", none, some "3.5", some "10"⟩],
   [⟨1, "Helpful", 4⟩], 1, 2⟩

/-- The second term index page of the discovery counterexample. -/
def cexPageB : TermPage :=
  { termSpanText := some "2264", termWinterText := none,
    termSpringText := some "Spring 2026", termSummerText := none, termFallText := none,
    termDateText := none, subjectHrefs := [],
    indexLinks := [] }

/-- The seed page of the discovery counterexample: it carries a link to a
second term index page. -/
def cexPageA : TermPage :=
  { termSpanText := some "2262 ", termWinterText := some "Winter 2026",
    termSpringText := none, termSummerText := none, termFallText := none,
    termDateText := some "January 5, 2026 to March 13, 2026", subjectHrefs := [],
    indexLinks := ["https://schedules.calpoly.edu/index_2264.htm"] }

/-- A site with two term index pages, the second reachable from the seed. -/
def cexSite : Site := fun url =>
  if url = seedUrl then some cexPageA
  else if url = "https://schedules.calpoly.edu/index_2264.htm" then some cexPageB
  else none

/-! ## Helper lemmas -/

theorem mkDatetimeTime_bounds {a b c h m s : Nat}
    (hv : mkDatetimeTime a b c = some (h, m, s)) : h < 24 ∧ m < 60 ∧ s < 60 := by
  unfold mkDatetimeTime at hv
  split at hv
  · next hc =>
    simp only [Option.some.injEq, Prod.mk.injEq] at hv
    obtain ⟨rfl, rfl, rfl⟩ := hv
    exact ⟨hc.1, hc.2.1, hc.2.2⟩
  · simp at hv

theorem tryFmt_bounds {cs : List Char} {f : TimeFmt} {h m s : Nat}
    (hf : tryFmt cs f = some (h, m, s)) : h < 24 ∧ m < 60 ∧ s < 60 := by
  cases f <;> simp only [tryFmt, Option.bind_eq_some] at hf <;>
    obtain ⟨v, -, hv⟩ := hf <;> exact mkDatetimeTime_bounds hv

theorem tryFormats_bounds {fs : List TimeFmt} {cs : List Char} {h m s : Nat}
    (hf : tryFormats fs cs = some (h, m, s)) : h < 24 ∧ m < 60 ∧ s < 60 := by
  induction fs with
  | nil => simp [tryFormats] at hf
  | cons f fs ih =>
    unfold tryFormats at hf
    split at hf
    · next v heq =>
      obtain rfl := Option.some.inj hf
      exact tryFmt_bounds heq
    · exact ih hf

theorem pad2_digit_facts :
    ∀ n, n < 60 →
      (Char.ofNat (48 + n / 10)).isDigit = true ∧ (Char.ofNat (48 + n % 10)).isDigit = true ∧
      ((Char.ofNat (48 + n / 10)) == ':') = false ∧ ((Char.ofNat (48 + n % 10)) == ':') = false ∧
      digitVal (Char.ofNat (48 + n / 10)) * 10 + digitVal (Char.ofNat (48 + n % 10)) = n := by
  decide

theorem fmtHMS_data (h m s : Nat) :
    (fmtHMS h m s).data =
      [Char.ofNat (48 + h / 10), Char.ofNat (48 + h % 10), ':',
       Char.ofNat (48 + m / 10), Char.ofNat (48 + m % 10), ':',
       Char.ofNat (48 + s / 10), Char.ofNat (48 + s % 10)] := rfl

theorem isPaddedHMS_fmtHMS {h m s : Nat} (hh : h < 24) (hm : m < 60) (hs : s < 60) :
    isPaddedHMS (fmtHMS h m s) = true := by
  obtain ⟨dh1, dh2, ch1, ch2, vh⟩ := pad2_digit_facts h (by omega)
  obtain ⟨dm1, dm2, cm1, cm2, vm⟩ := pad2_digit_facts m hm
  obtain ⟨ds1, ds2, cs1, cs2, vs⟩ := pad2_digit_facts s hs
  unfold isPaddedHMS
  rw [fmtHMS_data]
  simp only [dh1, dh2, dm1, dm2, ds1, ds2, ch1, ch2, cm1, cm2, cs1, cs2, Bool.and_eq_true,
    beq_self_eq_true, decide_eq_true_eq, vh, vm, vs, and_true, true_and]
  omega

/-! ## Claim theorems: parsing -/

/-- C6: `_parse_time` maps each accepted time format (12-hour or 24-hour,
with or without seconds, tolerating a non-breaking space) to a zero-padded
24-hour `"HH:MM:SS"` string; empty, missing and unrecognized inputs yield
`none`; every successful output is a well-formed zero-padded `"HH:MM:SS"`;
the function is total, so no exception escapes it. -/
theorem time_normalization_spec :
    _parse_time (some "8:10 AM") = some "08:10:00" ∧
    _parse_time (some "08:10 PM") = some "20:10:00" ∧
    _parse_time (some "13:00") = some "13:00:00" ∧
    _parse_time (some "13:00:00") = some "13:00:00" ∧
    _parse_time (some "") = none ∧
    _parse_time none = none ∧
    _parse_time (some "25:99") = none ∧
    (∀ raw out, _parse_time raw = some out → isPaddedHMS out = true) := by
  refine ⟨by decide, by decide, by decide, by decide, by decide, rfl, by decide, ?_⟩
  intro raw out hout
  cases raw with
  | none => simp [_parse_time] at hout
  | some r =>
    simp only [_parse_time] at hout
    by_cases h1 : r = ""
    · rw [if_pos h1] at hout
      exact absurd hout (by simp)
    · rw [if_neg h1] at hout
      by_cases h2 : pyStrip (replaceNbsp r) = ""
      · rw [if_pos h2] at hout
        exact absurd hout (by simp)
      · rw [if_neg h2] at hout
        cases htf : tryFormats [TimeFmt.IMp, TimeFmt.HM, TimeFmt.IMSp, TimeFmt.HMS]
            (pyStrip (replaceNbsp r)).data with
        | none =>
          rw [htf] at hout
          exact absurd hout (by simp)
        | some v =>
          obtain ⟨a, b, c⟩ := v
          rw [htf] at hout
          obtain rfl := Option.some.inj hout
          obtain ⟨hb1, hb2, hb3⟩ := tryFormats_bounds htf
          exact isPaddedHMS_fmtHMS hb1 hb2 hb3

/-- Witness for the universally quantified conjunct of
`time_normalization_spec`, at the concrete input `"8:10 AM"`. -/
theorem time_normalization_spec_witness : isPaddedHMS "08:10:00" = true :=
  time_normalization_spec.2.2.2.2.2.2.2 (some "8:10 AM") "08:10:00" (by decide)

/-- C7: `seats_available` is `max 0 (capacity - enrolled)` exactly when at
least three count cells are present and the second and third parse as
integers, `none` otherwise, and it is never negative — capacity 10 with
enrolled 12 yields 0. -/
theorem seats_available_spec :
    (∀ counts : List String, ∀ ecap enrl : Int, counts.length ≥ 3 →
      pyInt ((counts.get? 1).getD "") = some ecap →
      pyInt ((counts.get? 2).getD "") = some enrl →
      enrollment_available_of counts = some (max 0 (ecap - enrl))) ∧
    (∀ counts : List String, counts.length < 3 →
      enrollment_available_of counts = none) ∧
    (∀ counts : List String,
      pyInt ((counts.get? 1).getD "") = none ∨ pyInt ((counts.get? 2).getD "") = none →
      enrollment_available_of counts = none) ∧
    (∀ counts : List String, ∀ v : Int, enrollment_available_of counts = some v → 0 ≤ v) ∧
    enrollment_available_of ["30", "10", "12", "0", "0"] = some 0 := by
  refine ⟨?_, ?_, ?_, ?_, by decide⟩
  · intro counts ecap enrl h3 he hn
    unfold enrollment_available_of
    rw [if_pos h3, he, hn]
  · intro counts h3
    unfold enrollment_available_of
    rw [if_neg (by omega)]
  · intro counts hor
    unfold enrollment_available_of
    split
    · rcases hor with h | h
      · rw [h]
      · cases hc : pyInt ((counts.get? 1).getD "") with
        | none => rfl
        | some ecap => rw [h]
    · rfl
  · intro counts v hv
    unfold enrollment_available_of at hv
    split at hv
    · split at hv
      · exact absurd hv (by simp)
      · split at hv
        · exact absurd hv (by simp)
        · obtain rfl := Option.some.inj hv
          exact le_max_left 0 _
    · exact absurd hv (by simp)

/-- Witness for `seats_available_spec` at the concrete count cells
`("30", "10", "12", "0", "0")`. -/
theorem seats_available_spec_witness :
    enrollment_available_of ["30", "10", "12", "0", "0"] = some (max 0 ((10 : Int) - 12)) :=
  seats_available_spec.1 ["30", "10", "12", "0", "0"] 10 12 (by decide) (by decide) (by decide)

/-- C8 counterexample: on `"January 5, 2026 to garbage"` the second side
fails to parse, yet the stored start date is `January 5, 2026`, not null —
the claim that any failure stores null for both dates is false. -/
theorem term_dates_partial_failure_cex :
    parseTermDates "January 5, 2026 to garbage" = (some ⟨2026, 1, 5⟩, none) ∧
    (parseTermDates "January 5, 2026 to garbage").1 = some ⟨2026, 1, 5⟩ :=
  ⟨by decide, by decide⟩

/-- C8 (amended): the range is split on `" to "` and each side parsed as a
long-form date, and no exception escapes; when the separator is absent or
the first side fails, both dates are null; the end date is only ever set
together with the start date, and a stored start date always comes from a
successful parse of the first side — but a failure of the second side
alone keeps the already-parsed start date rather than nulling it. -/
theorem term_dates_failure_behaviour :
    (∀ tdt : String, listContains tdt.data (" to ").data = false →
      parseTermDates tdt = (none, none)) ∧
    (∀ tdt : String,
      strptimeBdY (pyStripL ((splitOnTo tdt.data []).headD [])) = none →
      parseTermDates tdt = (none, none)) ∧
    (∀ tdt : String, (parseTermDates tdt).2.isSome = true →
      (parseTermDates tdt).1.isSome = true) ∧
    (∀ tdt : String, ∀ d : PDate, (parseTermDates tdt).1 = some d →
      strptimeBdY (pyStripL ((splitOnTo tdt.data []).headD [])) = some d) := by
  refine ⟨?_, ?_, ?_, ?_⟩
  · intro tdt h
    unfold parseTermDates
    rw [if_neg (by simp [h])]
  · intro tdt h
    unfold parseTermDates
    split
    · rw [h]
    · rfl
  · intro tdt
    unfold parseTermDates
    split
    · split
      · simp
      · next d1 heq =>
        split
        · simp
        · simp
    · simp
  · intro tdt d hd
    unfold parseTermDates at hd
    split at hd
    · split at hd
      · exact absurd hd (by simp)
      · next d1 heq =>
        split at hd
        · simp only [Prod.fst] at hd
          obtain rfl := Option.some.inj hd
          exact heq
        · simp only [Prod.fst] at hd
          obtain rfl := Option.some.inj hd
          exact heq
    · exact absurd hd (by simp)

/-- Witness for `term_dates_failure_behaviour` at a concrete string with no
`" to "` separator. -/
theorem term_dates_failure_behaviour_witness :
    parseTermDates "Winter Quarter" = (none, none) :=
  term_dates_failure_behaviour.1 "Winter Quarter" (by decide)

/-- C5 counterexample: on a site whose seed page links to a second term
index page (term code `"2264"`), the spec's breadth-first traversal
discovers both terms, but the code's discovery output is exactly the seed
page's own term — the reachable term `"2264"` is never discovered. -/
theorem term_discovery_not_bfs_cex :
    (⟨"2264", "Spring 2026", ""⟩ : TermMeta) ∈ specDiscoveredTerms cexSite 4 ∧
    discoveredTerms cexSite =
      [⟨"2262", "Winter 2026", "January 5, 2026 to March 13, 2026"⟩] :=
  ⟨by decide, by decide⟩

/-- C5 (amended): term discovery processes only the single seed page
`index_curr.htm`: it outputs at most the seed page's own term, and its
output is unchanged however the index/term links of every page are
altered — such links are never followed. -/
theorem term_discovery_seed_only (site : Site) :
    (discoveredTerms site).length ≤ 1 ∧
    ∀ f : String → List String,
      discoveredTerms (fun u => (site u).map fun p => { p with indexLinks := f u }) =
        discoveredTerms site := by
  constructor
  · unfold discoveredTerms
    cases site seedUrl with
    | none => simp
    | some p =>
      cases hp : parse_homepage_term p with
      | none => simp [hp]
      | some t => simp [hp]
  · intro f
    unfold discoveredTerms
    cases hs : site seedUrl with
    | none => simp only [hs, Option.map_none']
    | some p =>
      simp only [hs, Option.map_some']
      rfl

theorem lookupMeta_append (acc : List (String × Item)) (x : String × Item) (code : String) :
    lookupMeta (acc ++ [x]) code =
      match lookupMeta acc code with
      | some v => some v
      | none => if x.1 == code then some x.2 else none := by
  unfold lookupMeta
  rw [List.find?_append]
  cases hl : List.find? (fun p => p.1 == code) acc with
  | some v => rfl
  | none =>
    rw [List.find?_cons]
    cases hbc : (x.1 == code) with
    | true => rfl
    | false => rfl

/-- C10 helper: the term metadata recorded by `process_item` for a term
code is exactly the first buffered item carrying that code, generalized
over the accumulator. -/
theorem lookupMeta_foldl (items : List Item) (acc : List (String × Item)) (code : String) :
    lookupMeta (items.foldl termMetaStep acc) code =
      match lookupMeta acc code with
      | some v => some v
      | none => items.find? fun it => it.term == code := by
  induction items generalizing acc with
  | nil =>
    simp only [List.foldl_nil, List.find?_nil]
    cases lookupMeta acc code <;> rfl
  | cons it rest ih =>
    simp only [List.foldl_cons, List.find?_cons]
    rw [ih]
    unfold termMetaStep
    by_cases hmem : (acc.find? fun p => p.1 == it.term).isSome = true
    · rw [if_pos hmem]
      cases hl : lookupMeta acc code with
      | some v => rfl
      | none =>
        cases hbc : (it.term == code) with
        | false => rfl
        | true =>
          exfalso
          have hc : it.term = code := eq_of_beq hbc
          rw [← hc] at hl
          unfold lookupMeta at hl
          rw [Option.map_eq_none'] at hl
          rw [hl] at hmem
          simp at hmem
    · rw [if_neg hmem, lookupMeta_append]
      cases hl : lookupMeta acc code with
      | some v => rfl
      | none =>
        cases hbc : (it.term == code) with
        | true => rfl
        | false => rfl

/-- C10: the Term row upsert for each code receives the first buffered item
seen for that code — `_term_meta[code]` equals the first item in the run
whose term field is `code`, so later differing metadata is ignored. -/
theorem term_meta_first_item_wins (items : List Item) (code : String) :
    lookupMeta (buildTermMeta items) code = items.find? fun it => it.term == code := by
  have h := lookupMeta_foldl items [] code
  unfold buildTermMeta
  rw [h]
  rfl

/-! ## Store-model helper lemmas -/

theorem upsertTerm_fields (db : DB) (code name : String) (ts te : Option PDate) (ay : Int) :
    ((upsertTerm db code name ts te ay).1).offerings = db.offerings ∧
    ((upsertTerm db code name ts te ay).1).professors = db.professors ∧
    ((upsertTerm db code name ts te ay).1).professor_tags = db.professor_tags := by
  unfold upsertTerm
  cases db.terms.find? (fun t => t.term_code == code) <;> exact ⟨rfl, rfl, rfl⟩

theorem upsertTerm_new_id (db : DB) (code name : String) (ts te : Option PDate) (ay : Int) :
    ∃ t ∈ ((upsertTerm db code name ts te ay).1).terms,
      t.id = (upsertTerm db code name ts te ay).2 := by
  unfold upsertTerm
  cases hf : db.terms.find? (fun t => t.term_code == code) with
  | some t0 =>
    have ht0 : t0 ∈ db.terms := List.mem_of_find?_eq_some hf
    have hp := List.find?_some hf
    refine ⟨_, List.mem_map_of_mem _ ht0, ?_⟩
    simp only at hp
    simp [hp]
  | none =>
    refine ⟨{ id := db.next_term_id, term_code := code, term_name := name, term_start := ts,
              term_end := te, academic_year := ay, is_active := true }, ?_, rfl⟩
    simp

theorem upsertTerm_mono (db : DB) (code name : String) (ts te : Option PDate) (ay : Int) :
    ∀ t ∈ db.terms, ∃ t2 ∈ ((upsertTerm db code name ts te ay).1).terms, t2.id = t.id := by
  intro t ht
  unfold upsertTerm
  cases hf : db.terms.find? (fun t => t.term_code == code) with
  | some t0 =>
    refine ⟨_, List.mem_map_of_mem _ ht, ?_⟩
    by_cases hc : (t.term_code == code) = true
    · simp [hc]
    · simp [hc]
  | none =>
    exact ⟨t, by simp [ht], rfl⟩

theorem get_or_create_fields (db : DB) (item : Item) :
    ((_get_or_create_term db item).1).offerings = db.offerings ∧
    ((_get_or_create_term db item).1).professors = db.professors ∧
    ((_get_or_create_term db item).1).professor_tags = db.professor_tags := by
  simp only [_get_or_create_term]
  exact upsertTerm_fields db item.term item.term_name _ _ _

theorem get_or_create_new_id (db : DB) (item : Item) :
    ∃ t ∈ ((_get_or_create_term db item).1).terms,
      t.id = (_get_or_create_term db item).2.1 := by
  simp only [_get_or_create_term]
  exact upsertTerm_new_id db item.term item.term_name _ _ _

theorem get_or_create_mono (db : DB) (item : Item) :
    ∀ t ∈ db.terms, ∃ t2 ∈ ((_get_or_create_term db item).1).terms, t2.id = t.id := by
  simp only [_get_or_create_term]
  exact upsertTerm_mono db item.term item.term_name _ _ _

theorem insertOfferingRow_pred (P : Nat → Prop) (rows : List OfferingRow) (r : OfferingRow)
    (hrows : ∀ o ∈ rows, P o.term_id) (hr : P r.term_id) :
    ∀ o ∈ insertOfferingRow rows r, P o.term_id := by
  intro o ho
  unfold insertOfferingRow at ho
  split at ho
  · obtain ⟨x, hx, rfl⟩ := List.mem_map.mp ho
    split
    · exact hrows x hx
    · exact hrows x hx
  · rcases List.mem_append.mp ho with hmem | hmem
    · exact hrows o hmem
    · rw [List.mem_singleton] at hmem
      subst hmem
      exact hr

theorem foldl_insertOfferingRow_pred (P : Nat → Prop) (rs : List OfferingRow) :
    ∀ init : List OfferingRow, (∀ o ∈ init, P o.term_id) → (∀ o ∈ rs, P o.term_id) →
      ∀ o ∈ rs.foldl insertOfferingRow init, P o.term_id := by
  induction rs with
  | nil =>
    intro init hinit _ o ho
    exact hinit o ho
  | cons r rs ih =>
    intro init hinit hrs o ho
    rw [List.foldl_cons] at ho
    exact ih _ (insertOfferingRow_pred P init r hinit (hrs r (by simp)))
      (fun o2 ho2 => hrs o2 (by simp [ho2])) o ho

theorem replaceOneTerm_inv (f : FaultModel) (m : Item) (items : List Item) (db : DB)
    (h : Inv db) : Inv (replaceOutcomeDB (replaceOneTerm f m items db)) := by
  obtain ⟨hoff, hprof, htags⟩ := get_or_create_fields db m
  have hmono := get_or_create_mono db m
  have hnew := get_or_create_new_id db m
  have hInvA : Inv ((_get_or_create_term db m).1) := by
    constructor
    · intro o ho
      rw [hoff] at ho
      obtain ⟨t, ht, hid⟩ := h.1 o ho
      obtain ⟨t2, ht2, hid2⟩ := hmono t ht
      exact ⟨t2, ht2, by rw [hid2, hid]⟩
    · intro tg htg
      rw [htags] at htg
      obtain ⟨p, hp, hid⟩ := h.2 tg htg
      rw [← hprof] at hp
      exact ⟨p, hp, hid⟩
  simp only [replaceOneTerm]
  split
  · exact hInvA
  · constructor
    · intro o ho
      refine foldl_insertOfferingRow_pred
        (fun n => ∃ t ∈ ((_get_or_create_term db m).1).terms, t.id = n) _ _ ?_ ?_ o ho
      · intro o2 ho2
        exact hInvA.1 o2 (List.mem_filter.mp ho2).1
      · intro o2 ho2
        obtain ⟨it, -, rfl⟩ := List.mem_map.mp ho2
        exact hnew
    · intro tg htg
      exact hInvA.2 tg htg

theorem replaceOneTerm_professors (f : FaultModel) (m : Item) (items : List Item) (db : DB) :
    (replaceOutcomeDB (replaceOneTerm f m items db)).professors = db.professors ∧
    (replaceOutcomeDB (replaceOneTerm f m items db)).professor_tags = db.professor_tags := by
  obtain ⟨-, hprof, htags⟩ := get_or_create_fields db m
  simp only [replaceOneTerm]
  split
  · exact ⟨hprof, htags⟩
  · exact ⟨hprof, htags⟩

theorem replaceTermsLoop_inv (f : FaultModel) (tm : List (String × Item)) :
    ∀ (groups : List (String × List Item)) (db : DB) (b : Bool), Inv db →
      Inv (replaceOutcomeDB (replaceTermsLoop f tm groups db b)) := by
  intro groups
  induction groups with
  | nil =>
    intro db b h
    exact h
  | cons g rest ih =>
    intro db b h
    obtain ⟨code, items⟩ := g
    unfold replaceTermsLoop
    cases hlm : lookupMeta tm code with
    | none =>
      simp only [hlm]
      exact h
    | some m =>
      simp only [hlm]
      cases hr : replaceOneTerm f m items db with
      | ok v =>
        obtain ⟨db1, isNew⟩ := v
        simp only [hr]
        have h1 : Inv db1 := by
          have h2 := replaceOneTerm_inv f m items db h
          rw [hr] at h2
          exact h2
        exact ih db1 (b || isNew) h1
      | error e =>
        obtain ⟨msg, db1⟩ := e
        simp only [hr]
        have h2 := replaceOneTerm_inv f m items db h
        rw [hr] at h2
        exact h2

theorem replaceTermsLoop_professors (f : FaultModel) (tm : List (String × Item)) :
    ∀ (groups : List (String × List Item)) (db : DB) (b : Bool),
      (replaceOutcomeDB (replaceTermsLoop f tm groups db b)).professors = db.professors ∧
      (replaceOutcomeDB (replaceTermsLoop f tm groups db b)).professor_tags =
        db.professor_tags := by
  intro groups
  induction groups with
  | nil =>
    intro db b
    exact ⟨rfl, rfl⟩
  | cons g rest ih =>
    intro db b
    obtain ⟨code, items⟩ := g
    unfold replaceTermsLoop
    cases hlm : lookupMeta tm code with
    | none =>
      simp only [hlm]
      exact ⟨rfl, rfl⟩
    | some m =>
      simp only [hlm]
      cases hr : replaceOneTerm f m items db with
      | ok v =>
        obtain ⟨db1, isNew⟩ := v
        simp only [hr]
        have hp := replaceOneTerm_professors f m items db
        rw [hr] at hp
        obtain ⟨ih1, ih2⟩ := ih db1 (b || isNew)
        exact ⟨ih1.trans hp.1, ih2.trans hp.2⟩
      | error e =>
        obtain ⟨msg, db1⟩ := e
        simp only [hr]
        have hp := replaceOneTerm_professors f m items db
        rw [hr] at hp
        exact hp

theorem upsertProfessor_fields (db : DB) (item : NormProfessor) (key : String) :
    ((upsertProfessor db item key).1).terms = db.terms ∧
    ((upsertProfessor db item key).1).offerings = db.offerings ∧
    ((upsertProfessor db item key).1).professor_tags = db.professor_tags := by
  unfold upsertProfessor
  cases db.professors.find? (fun p => p.professor_key == key) <;> exact ⟨rfl, rfl, rfl⟩

theorem upsertProfessor_new_id (db : DB) (item : NormProfessor) (key : String) :
    ∃ p ∈ ((upsertProfessor db item key).1).professors,
      p.id = (upsertProfessor db item key).2 := by
  unfold upsertProfessor
  cases hf : db.professors.find? (fun p => p.professor_key == key) with
  | some p0 =>
    have hp0 : p0 ∈ db.professors := List.mem_of_find?_eq_some hf
    have hp := List.find?_some hf
    refine ⟨_, List.mem_map_of_mem _ hp0, ?_⟩
    simp only at hp
    simp [hp]
  | none =>
    refine ⟨{ id := db.next_prof_id, professor_key := key, professor_name := item.name,
              overall_rating := item.overallRating,
              student_difficulties := item.studentDifficulties,
              clarity := item.clarity, num_evals := item.numEvals }, ?_, rfl⟩
    simp

theorem upsertProfessor_mono (db : DB) (item : NormProfessor) (key : String) :
    ∀ p ∈ db.professors,
      ∃ p2 ∈ ((upsertProfessor db item key).1).professors, p2.id = p.id := by
  intro p hp
  unfold upsertProfessor
  cases hf : db.professors.find? (fun p => p.professor_key == key) with
  | some p0 =>
    refine ⟨_, List.mem_map_of_mem _ hp, ?_⟩
    by_cases hc : (p.professor_key == key) = true
    · simp [hc]
    · simp [hc]
  | none =>
    exact ⟨p, by simp [hp], rfl⟩

theorem insertTagRow_pred (P : Nat → Prop) (tags : List TagRow) (pid : Nat) (tag : String)
    (votes : Int) (htags : ∀ t ∈ tags, P t.professor_id) (hp : P pid) :
    ∀ t ∈ insertTagRow tags pid tag votes, P t.professor_id := by
  intro t ht
  unfold insertTagRow at ht
  split at ht
  · exact htags t ht
  · rcases List.mem_append.mp ht with hmem | hmem
    · exact htags t hmem
    · rw [List.mem_singleton] at hmem
      subst hmem
      exact hp

theorem foldl_insertTagRow_pred (P : Nat → Prop) (pid : Nat) (kvs : List (String × Int)) :
    ∀ init : List TagRow, (∀ t ∈ init, P t.professor_id) → P pid →
      ∀ t ∈ kvs.foldl (fun acc kv => insertTagRow acc pid kv.1 kv.2) init,
        P t.professor_id := by
  induction kvs with
  | nil =>
    intro init hinit _ t ht
    exact hinit t ht
  | cons kv kvs ih =>
    intro init hinit hp t ht
    rw [List.foldl_cons] at ht
    exact ih _ (insertTagRow_pred P init pid kv.1 kv.2 hinit hp) hp t ht

theorem applyOneProfessor_inv (db : DB) (item : NormProfessor) (pid : String)
    (h : Inv db) : Inv (applyOneProfessor db item pid) := by
  obtain ⟨hterms, hoffs, htags⟩ := upsertProfessor_fields db item pid
  have hmono := upsertProfessor_mono db item pid
  have hnew := upsertProfessor_new_id db item pid
  constructor
  · intro o ho
    have ho2 : o ∈ ((upsertProfessor db item pid).1).offerings := ho
    rw [hoffs] at ho2
    obtain ⟨t, ht, hid⟩ := h.1 o ho2
    have ht2 : t ∈ ((upsertProfessor db item pid).1).terms := by
      rw [hterms]
      exact ht
    exact ⟨t, ht2, hid⟩
  · intro tg htg
    refine foldl_insertTagRow_pred
      (fun n => ∃ p ∈ ((upsertProfessor db item pid).1).professors, p.id = n)
      _ _ _ ?_ hnew tg htg
    intro tg2 htg2
    have htg3 : tg2 ∈ db.professor_tags := by
      have h4 := (List.mem_filter.mp htg2).1
      rw [htags] at h4
      exact h4
    obtain ⟨p, hp, hid⟩ := h.2 tg2 htg3
    obtain ⟨p2, hp2, hid2⟩ := hmono p hp
    exact ⟨p2, hp2, by rw [hid2, hid]⟩

theorem snapshotBody_inv (f : FaultModel) :
    ∀ (pitems : List RawProfessor) (db : DB), Inv db →
      ∀ db2, snapshotBody f pitems db = .ok db2 → Inv db2 := by
  intro pitems
  induction pitems with
  | nil =>
    intro db h db2 h2
    have h3 : (.ok db : Except String DB) = .ok db2 := h2
    obtain rfl := Except.ok.inj h3
    exact h
  | cons raw rest ih =>
    intro db h db2 h2
    unfold snapshotBody at h2
    cases hpid : (_normalize_professor_item raw).professor_id with
    | none =>
      simp only [hpid] at h2
      exact ih db h db2 h2
    | some pid =>
      simp only [hpid] at h2
      by_cases hemp : pid = ""
      · rw [if_pos hemp] at h2
        exact ih db h db2 h2
      · rw [if_neg hemp] at h2
        by_cases hfail : f.profUpsertFails pid = true
        · rw [if_pos hfail] at h2
          exact absurd h2 (by simp)
        · rw [if_neg hfail] at h2
          exact ih _ (applyOneProfessor_inv db _ pid h) db2 h2

/-! ## Claim theorems: reconciliation -/

/-- C1: when the bulk insert for a term fails after the delete inside the
same transaction, the replacement raises and the rolled-back committed
state carries the offerings table exactly as it was — the term's prior
offerings persist and a zero-offering state for the term is never
committed. -/
theorem per_term_replace_atomic (f : FaultModel) (metaItem : Item) (items : List Item)
    (db : DB) (h : f.bulkInsertFails metaItem.term = true) :
    replaceOutcomeFailed (replaceOneTerm f metaItem items db) = true ∧
    (replaceOutcomeDB (replaceOneTerm f metaItem items db)).offerings = db.offerings := by
  obtain ⟨hoff, -, -⟩ := get_or_create_fields db metaItem
  simp only [replaceOneTerm, h, if_true]
  exact ⟨rfl, hoff⟩

/-- Witness for `per_term_replace_atomic`: a failing bulk insert for term
`"A"` on the empty database. -/
theorem per_term_replace_atomic_witness :
    replaceOutcomeFailed (replaceOneTerm exFaultA exItemA [exItemA] emptyDB) = true ∧
    (replaceOutcomeDB (replaceOneTerm exFaultA exItemA [exItemA] emptyDB)).offerings =
      emptyDB.offerings :=
  per_term_replace_atomic exFaultA exItemA [exItemA] emptyDB (by decide)

/-- C2 counterexample: with buffered items for terms `"A"` then `"B"` and a
failing bulk insert for `"A"`, `close_spider` raises out of the per-term
loop: the run ends in error and term `"B"`'s group was never attempted —
no Term row and no offerings for `"B"` are committed — refuting the claim
that a per-term failure is logged and the other terms still replaced. -/
theorem per_term_failure_blocks_rest_cex :
    classOfferings_close_spider exFaultA [] [exItemA, exItemB] emptyDB =
      .error ("bulk insert failed", exDB1) ∧
    exDB1.offerings = [] ∧
    exDB1.terms.find? (fun t => t.term_code == "B") = none :=
  ⟨by decide, by decide, by decide⟩

/-- C2 (amended): there is no per-term exception handling: a failure while
replacing one term propagates out of the loop with the rolled-back state of
that term, so the remaining term groups are never attempted — while term
groups committed before the failure stay committed, and the failing term's
rollback leaves the whole offerings table as it was when its group
started. -/
theorem per_term_failure_aborts_batch (f : FaultModel) (tm : List (String × Item))
    (code : String) (items : List Item) (rest : List (String × List Item)) (db : DB)
    (b : Bool) (m : Item) (e : String) (db1 : DB)
    (h1 : lookupMeta tm code = some m)
    (h2 : replaceOneTerm f m items db = .error (e, db1)) :
    replaceTermsLoop f tm ((code, items) :: rest) db b = .error (e, db1) ∧
    db1.offerings = db.offerings := by
  constructor
  · unfold replaceTermsLoop
    simp only [h1, h2]
  · have hoff := (get_or_create_fields db m).1
    simp only [replaceOneTerm] at h2
    split at h2
    · simp only [Except.error.injEq, Prod.mk.injEq] at h2
      obtain ⟨-, rfl⟩ := h2
      exact hoff
    · exact absurd h2 (by simp)

/-- Witness for `per_term_failure_aborts_batch`: term `"A"` fails first
with term `"B"` still pending. -/
theorem per_term_failure_aborts_batch_witness :
    replaceTermsLoop exFaultA [("A", exItemA)] [("A", [exItemA]), ("B", [exItemB])]
      emptyDB false = .error ("bulk insert failed", exDB1) ∧
    exDB1.offerings = emptyDB.offerings :=
  per_term_failure_aborts_batch exFaultA [("A", exItemA)] "A" [exItemA] [("B", [exItemB])]
    emptyDB false exItemA "bulk insert failed" exDB1 (by decide) (by decide)

/-- C3 counterexample: refreshing `"p1"` alone succeeds and commits its
professor row and tag; in the batch `[p1, p2]` where `"p2"`'s upsert
returns no row, the single transaction wrapping the whole loop rolls back
`"p1"`'s already-executed refresh too, and the caller is left with the
untouched original state — refuting the claim that professors refreshed
earlier in the batch are not rolled back. -/
theorem professor_batch_rollback_cex :
    _apply_professor_snapshot exFaultP2 [exRawP "p1"] emptyDB = .ok exDBp1 ∧
    exDBp1.professors.map (fun p => p.professor_key) = ["p1"] ∧
    polyRatings_close_spider exFaultP2 [exRawP "p1", exRawP "p2"] emptyDB = emptyDB ∧
    emptyDB.professors = [] :=
  ⟨by decide, by decide, by decide, rfl⟩

/-- C3 (amended): the per-professor upsert-then-delete-tags-then-insert-tags
sequence runs inside one `conn.transaction()` spanning the whole batch: a
failure partway through rolls back every professor of that batch,
including those already refreshed earlier, and the caller's catch leaves
professor data exactly as before the attempt. -/
theorem professor_batch_single_transaction (f : FaultModel) (pitems : List RawProfessor)
    (db : DB) (e : String) (h : snapshotBody f pitems db = .error e) :
    polyRatings_close_spider f pitems db = db := by
  unfold polyRatings_close_spider
  split
  · rfl
  · unfold _apply_professor_snapshot
    rw [h]

/-- Witness for `professor_batch_single_transaction`: the failing batch
`[p1, p2]` on the empty database. -/
theorem professor_batch_single_transaction_witness :
    polyRatings_close_spider exFaultP2 [exRawP "p1", exRawP "p2"] emptyDB = emptyDB :=
  professor_batch_single_transaction exFaultP2 [exRawP "p1", exRawP "p2"] emptyDB
    "Upsert did not return id" (by decide)

/-- C4: a Flow B failure — the ratings endpoint unreachable, or the
snapshot transaction failing — is caught at the flow boundary inside
`close_spider`: the run still returns Flow A's committed per-term state
unchanged, and the professor and tag tables hold exactly what they held
before the failed attempt. -/
theorem flowB_failure_isolated (f : FaultModel) (fetched : List RawProfessor)
    (pitems : List Item) (db dbA : DB) (sawNew : Bool)
    (hA : replaceTermsLoop f (buildTermMeta pitems) (groupByTerm pitems) db false =
      .ok (dbA, sawNew))
    (hB : f.fetchFails = true ∨ ∃ e, snapshotBody f fetched dbA = .error e) :
    classOfferings_close_spider f fetched pitems db = .ok dbA ∧
    dbA.professors = db.professors ∧ dbA.professor_tags = db.professor_tags := by
  have hpres :=
    replaceTermsLoop_professors f (buildTermMeta pitems) (groupByTerm pitems) db false
  rw [hA] at hpres
  refine ⟨?_, hpres.1, hpres.2⟩
  unfold classOfferings_close_spider
  split
  · next hemp =>
    have hnil : pitems = [] := by
      cases pitems with
      | nil => rfl
      | cons x xs => simp at hemp
    subst hnil
    have h2 : (.ok (db, false) : Except (String × DB) (DB × Bool)) = .ok (dbA, sawNew) := hA
    simp only [Except.ok.injEq, Prod.mk.injEq] at h2
    obtain ⟨rfl, -⟩ := h2
    rfl
  · simp only [hA]
    cases sawNew with
    | false => rfl
    | true =>
      simp only [if_true]
      by_cases hf : f.fetchFails = true
      · simp [hf]
      · simp only [hf, if_false]
        rcases hB with hf2 | ⟨e, he⟩
        · exact absurd hf2 hf
        · unfold _apply_professor_snapshot
          simp only [he]
          rfl

/-- Witness for `flowB_failure_isolated`: Flow A replaces term `"B"`, then
the ratings fetch fails; the committed Flow A state is returned and the
professor tables stay empty. -/
theorem flowB_failure_isolated_witness :
    classOfferings_close_spider exFetchFail [exRawP "p1"] [exItemB] emptyDB = .ok exDBB ∧
    exDBB.professors = emptyDB.professors ∧ exDBB.professor_tags = emptyDB.professor_tags :=
  flowB_failure_isolated exFetchFail [exRawP "p1"] [exItemB] emptyDB exDBB true
    (by decide) (Or.inl rfl)

/-- C9: every storage-writing operation preserves the referential
invariants — no offering row without its term row (the Term upsert
precedes the offering insert within the same per-term unit) and no tag row
without its professor row (tags are inserted against the id returned by
the professor upsert inside the same transaction) — across both flows, on
success and on failure. -/
theorem referential_invariants_preserved (f : FaultModel)
    (fetched profItems : List RawProfessor) (pitems : List Item) (db : DB) (h : Inv db) :
    Inv (resultDB (classOfferings_close_spider f fetched pitems db)) ∧
    Inv (polyRatings_close_spider f profItems db) := by
  constructor
  · unfold classOfferings_close_spider
    split
    · exact h
    · cases hl : replaceTermsLoop f (buildTermMeta pitems) (groupByTerm pitems) db false with
      | error e =>
        obtain ⟨msg, db1⟩ := e
        have h2 := replaceTermsLoop_inv f (buildTermMeta pitems) (groupByTerm pitems) db false h
        rw [hl] at h2
        exact h2
      | ok v =>
        obtain ⟨db1, sawNew⟩ := v
        have h1 : Inv db1 := by
          have h2 :=
            replaceTermsLoop_inv f (buildTermMeta pitems) (groupByTerm pitems) db false h
          rw [hl] at h2
          exact h2
        cases sawNew with
        | false => exact h1
        | true =>
          simp only [if_true]
          by_cases hf : f.fetchFails = true
          · simp only [hf, if_true]
            exact h1
          · simp only [hf, if_false]
            cases hs : _apply_professor_snapshot f fetched db1 with
            | ok db2 => exact snapshotBody_inv f fetched db1 h1 db2 hs
            | error e => exact h1
  · unfold polyRatings_close_spider
    split
    · exact h
    · cases hs : _apply_professor_snapshot f profItems db with
      | ok db2 => exact snapshotBody_inv f profItems db h db2 hs
      | error e => exact h

/-- Witness for `referential_invariants_preserved`: both flows run from the
empty database, which satisfies the invariants vacuously. -/
theorem referential_invariants_preserved_witness :
    Inv (resultDB (classOfferings_close_spider noFaults [exRawP "p1"] [exItemA] emptyDB)) ∧
    Inv (polyRatings_close_spider noFaults [exRawP "p1"] emptyDB) :=
  referential_invariants_preserved noFaults [exRawP "p1"] [exRawP "p1"] [exItemA] emptyDB
    (by refine ⟨?_, ?_⟩ <;> intro x hx <;> simp [emptyDB] at hx)

end CalPolySchedule
